import Mathlib

/-!
Verification of the canvas engine of `cwl-svg` (`src/graph/workflow.ts`)
against its natural-language specification.

The TypeScript source is shallowly embedded: JS numbers are modelled as
rationals (`ℚ`), DOM/SVG state as explicit Lean structures, and stateful
methods as pure state-passing functions.  Euclidean distances (computed by
the external `Geometry.distance` helper) appear in the source only inside
order comparisons, so they are embedded through their squares, which keeps
every definition inside `ℚ`; since squaring is monotone on nonnegative
numbers this preserves every comparison the source performs.
-/

namespace CwlSvg

/-! ## Viewport transform (`scaleWorkflow`, `translateMouseCoords`)

The workflow `<g>` element carries a single SVG transform
`matrix(a, 0, 0, d, e, f)`; the code only ever touches `a`, `d`, `e`, `f`
(no rotation/skew components exist), so the matrix is embedded as those
four rationals.  The svg root itself is untransformed, hence the
workflow group's screen CTM equals this matrix. -/

structure TransformMatrix where
  a : ℚ
  d : ℚ
  e : ℚ
  f : ℚ
deriving DecidableEq

/-- State of the `Workflow` class that the scaling path touches:
the workflow group's transform matrix, the stored `this.scale`, the
label counter-scale applied to every `.node .label` transform, and the
number of handlers subscribed to the `"workflow.fit"` event.

Modelled from the spec for the part outside `src/`: the event hub
(`utils/event-hub`, not under `src/`) keeps a list of handlers per event
name and `on` appends one handler to that list, so the hub state relevant
here is the count of `"workflow.fit"` handlers. -/
structure WorkflowState where
  matrix : TransformMatrix
  scale : ℚ
  labelScale : ℚ
  fitHandlers : ℕ
deriving DecidableEq

/-- Initial state: the markup puts `transform="matrix(1,0,0,1,0,0)"` on the
workflow group, `this.scale` is initialized to `1`, labels start unscaled,
and no `"workflow.fit"` handler has been registered. -/
def initWorkflowState : WorkflowState :=
  { matrix := ⟨1, 1, 0, 0⟩, scale := 1, labelScale := 1, fitHandlers := 0 }

/-- Method `translateMouseCoords(x, y)`: inverts the workflow group's screen CTM
`matrix(a,0,0,d,e,f)` to map a screen point into canvas space. -/
def translateMouseCoords (m : TransformMatrix) (x y : ℚ) : ℚ × ℚ :=
  ((x - m.e) / m.a, (y - m.f) / m.d)

/-- The forward direction of the same CTM: the screen position of a
canvas-space point under matrix `m`. -/
def canvasToScreen (m : TransformMatrix) (p : ℚ × ℚ) : ℚ × ℚ :=
  (m.a * p.1 + m.e, m.d * p.2 + m.f)

/-- Method `scaleWorkflow(scaleCoefficient, ev?)` (workflow.ts:375-425): stores the
scale, updates the matrix anchored at the event's client coordinates
(defaulting to `(0,0)` when no event is given), recomputes the label
counter-scale `1 + (1 - scale) / (scale * 2)`, and subscribes one more
`"workflow.fit"` handler on the event hub. -/
def scaleWorkflow (scaleCoefficient : ℚ) (ev : Option (ℚ × ℚ)) (st : WorkflowState) :
    WorkflowState :=
  let m := st.matrix
  let coords := translateMouseCoords m
    (match ev with | some p => p.1 | none => 0)
    (match ev with | some p => p.2 | none => 0)
  let e1 := m.e + m.a * coords.1
  let f1 := m.f + m.a * coords.2
  let e2 := e1 - scaleCoefficient * coords.1
  let f2 := f1 - scaleCoefficient * coords.2
  { matrix := ⟨scaleCoefficient, scaleCoefficient, e2, f2⟩
    scale := scaleCoefficient
    labelScale := 1 + (1 - scaleCoefficient) / (scaleCoefficient * 2)
    fitHandlers := st.fitHandlers + 1 }

/-- The `mousewheel` listener installed in the constructor
(workflow.ts:89-104): ignores the wheel while dragging, computes the target
scale `this.scale + deltaY / 500`, returns without any mutation when the
target lies outside the valid zoom band `(0.15, √3]` (checked as
`scale <= 0.15 || scale * scale > 3`), and otherwise delegates to
`scaleWorkflow` anchored at the pointer. -/
def mousewheelListener (isDragging : Bool) (deltaY clientX clientY : ℚ)
    (st : WorkflowState) : WorkflowState :=
  if isDragging then st
  else
    let scale := st.scale + deltaY / 500
    if scale ≤ 15/100 ∨ scale * scale > 3 then st
    else scaleWorkflow scale (some (clientX, clientY)) st

/-- Folding a sequence of `scaleWorkflow` calls (factor and optional anchor
each time) over a starting state. -/
def scaleCalls (calls : List (ℚ × Option (ℚ × ℚ))) (st : WorkflowState) :
    WorkflowState :=
  calls.foldl (fun s c => scaleWorkflow c.1 c.2 s) st

/-- Number of times the fit routine runs when a single `"workflow.fit"`
command is emitted.

Modelled from the spec: the event hub (not under `src/`) is a generic
publish/subscribe bus whose `emit` invokes every handler subscribed to the
event once, so one fit command runs the fit routine once per registered
handler. -/
def fitRunsPerEmit (st : WorkflowState) : ℕ :=
  st.fitHandlers

/-! ## Boundary auto-scroll state (`dragBoundaryInterval`)

The singleton `this.dragBoundaryInterval` object (workflow.ts:62-69).  The
timer handle stored in `interval` (a JS interval id or `null`) is embedded
as a `Bool` recording whether a repeating timer is currently set. -/

/-- The canvas's screen bounding client rectangle. -/
structure Rect where
  left : ℚ
  right : ℚ
  top : ℚ
  bottom : ℚ
deriving DecidableEq

/-- The `dragBoundaryInterval` singleton: axis flags, timer handle,
accumulated auto-scroll offsets, and the port highlighted by the timer's
own logic. -/
structure DragBoundaryIntervalState where
  x : Bool
  y : Bool
  interval : Bool
  xOffset : ℚ
  yOffset : ℚ
  highlightedPort : Option String
deriving DecidableEq

/-- The default (initial) value of `dragBoundaryInterval`. -/
def dragBoundaryIntervalDefault : DragBoundaryIntervalState :=
  ⟨false, false, false, 0, 0, none⟩

/-- Method `getBoundaryZonesXYAxes(x, y)` (workflow.ts:679-703): classify each axis
into `-1` (near edge), `0` (interior) or `1` (far edge) using the boundary
band width `dragBoundary`, and — when the pointer is in the interior on
both axes — clear the interval, the axis flags and the timer-highlighted
port if a timer is currently set.  Returns the classification together
with the updated `dragBoundaryInterval` state. -/
def getBoundaryZonesXYAxes (x y : ℚ) (rect : Rect) (dragBoundary : ℚ)
    (dbi : DragBoundaryIntervalState) :
    (ℤ × ℤ) × DragBoundaryIntervalState :=
  let isLeftBoundary := x < rect.left + dragBoundary
  let isRightBoundary := x > rect.right - dragBoundary
  let isTopBoundary := y < rect.top + dragBoundary
  let isBottomBoundary := y > rect.bottom - dragBoundary
  let dbi' :=
    if ¬isLeftBoundary ∧ ¬isRightBoundary ∧ ¬isTopBoundary ∧ ¬isBottomBoundary then
      if dbi.interval then
        { dbi with x := false, y := false, interval := false,
                   highlightedPort := none }
      else dbi
    else dbi
  ((if isLeftBoundary then -1 else if isRightBoundary then 1 else 0,
    if isTopBoundary then -1 else if isBottomBoundary then 1 else 0),
   dbi')

/-- Method `setDragBoundaryIntervalToDefault()` (workflow.ts:1214-1222): clears the
timer, the axis flags and the highlighted port if a timer is set, and
unconditionally zeroes the accumulated offsets. -/
def setDragBoundaryIntervalToDefault (dbi : DragBoundaryIntervalState) :
    DragBoundaryIntervalState :=
  let d1 :=
    if dbi.interval then
      { dbi with x := false, y := false, interval := false,
                 highlightedPort := none }
    else dbi
  { d1 with xOffset := 0, yOffset := 0 }

/-- The band self-adjustment loop at the top of
`setDragBoundaryIntervalIfNecessary` (workflow.ts:590-594):

`while (right - b <= left + b || right <= left + b * 4) b := b / 2`.

Embedded with an explicit fuel bound; `none` means the fuel ran out before
the loop exited. -/
def adjustDragBoundary (rect : Rect) : ℚ → ℕ → Option ℚ
  | _, 0 => none
  | b, fuel + 1 =>
      if rect.right - b ≤ rect.left + b ∨ rect.right ≤ rect.left + b * 4 then
        adjustDragBoundary rect (b / 2) fuel
      else some b

/-! ## Port connection resolver -/

/-- Squared straight-line distance.

Modelled from the spec for the part outside `src/`: the external
`Geometry.distance` helper is the straight-line (Euclidean) distance
between two points.  The source uses distances only inside order
comparisons (`<`, subtraction-based sort comparator), so the embedding
works with squared distances, which keeps every value rational; squaring
is strictly monotone on nonnegative reals, hence every comparison of the
source is preserved when both sides are squared. -/
def distanceSq (x1 y1 x2 y2 : ℚ) : ℚ :=
  (x2 - x1) ^ 2 + (y2 - y1) ^ 2

/-- A candidate port as seen by the drag-move handler: its
`data-connection-id` and its canvas-space position (the `e`/`f` entries of
its transform relative to the workflow group). -/
structure PortPos where
  id : String
  x : ℚ
  y : ℚ
deriving DecidableEq

/-- A candidate port after ranking: the source stores the computed distance
on the element (`el.distance`); the embedding stores its square. -/
structure RankedPort where
  id : String
  distSq : ℚ
deriving DecidableEq

/-- The sort comparator of `getSortedConnectionPorts`
(`el1.distance - el2.distance`, i.e. ascending distance), on squares. -/
def rankLe (a b : RankedPort) : Bool :=
  a.distSq ≤ b.distSq

/-- Method `getSortedConnectionPorts(allConnectionPorts, coords)`
(workflow.ts:1149-1158): compute each candidate port's distance to the
reference point and sort ascending. -/
def getSortedConnectionPorts (ports : List PortPos) (cx cy : ℚ) :
    List RankedPort :=
  (ports.map fun p => ⟨p.id, distanceSq cx cy p.x p.y⟩).mergeSort rankLe

/-- Method `highlightPortOrShowGhostNode(ghostIONode, sorted, nodeToMouseDistance,
edgeDirection, newCoords)` (workflow.ts:1185-1209): the ghost node is first
hidden; if the nearest ranked port is at distance `< 100` it becomes the
highlighted port (ghost stays hidden); otherwise there is no highlighted
port and the ghost is revealed exactly when the origin-node-to-cursor
distance exceeds `120`.  Returns (highlighted port, ghost hidden flag);
distances are compared through their squares. -/
def highlightPortOrShowGhostNode (sorted : List RankedPort)
    (nodeToMouseDistSq : ℚ) : Option String × Bool :=
  match sorted with
  | p :: _ =>
      if p.distSq < 100 ^ 2 then (some p.id, true)
      else (none, if nodeToMouseDistSq > 120 ^ 2 then false else true)
  | [] => (none, if nodeToMouseDistSq > 120 ^ 2 then false else true)

/-- Whether a connection id starts with `"in"` (the string-prefix heuristic
the release callback uses to decide input vs output roles).
`String.startsWith` is embedded as a character-list prefix test. -/
def idIsInput (id : String) : Bool :=
  "in".data.isPrefixOf id.data

/-- Whether an edge with the given source/destination connection ids
already exists.

Modelled from the spec for the part outside `src/`: `GraphEdge.findEdge`
(graph/edge.ts, not under `src/`) looks an existing rendered edge up by its
source and destination connection ids. -/
def findEdge (edges : List (String × String)) (s d : String) : Bool :=
  (s, d) ∈ edges

/-- The source/destination normalization of the release callback
(workflow.ts:1035-1045): the origin id is the source and the highlighted
port the destination, swapped when the origin id starts with `"in"`, so
that the input-side connection id always ends up as the destination. -/
def normalizePair (originID hp : String) : String × String :=
  if idIsInput originID then (hp, originID) else (originID, hp)

/-- Observable result of the port-drag release callback: `beforeChange`
notifications emitted (their `type` tags), the rendered edge list, the
`model.connect` calls made, how many inputs/outputs were created via
`createInputFromPort`/`createOutputFromPort`, and the final
`dragBoundaryInterval` state. -/
structure ReleaseResult where
  beforeChangeEmits : List String
  edges : List (String × String)
  connectCalls : List (String × String)
  createdInputs : ℕ
  createdOutputs : ℕ
  dbi : DragBoundaryIntervalState
deriving DecidableEq

/-- The release callback of `attachPortDragBehavior` (workflow.ts:1023-1139).
Inputs: the origin port's connection id, the pointer-driven highlighted
port, the ghost node's hidden flag, the existing rendered edges, the
connection id the data model would assign to a newly created input/output,
the release pointer position with the canvas rectangle and band width
(used to clamp the new node into the canvas), and the
`dragBoundaryInterval` state.  The callback first lets a timer-driven
highlight override the pointer-driven one (`dragBoundaryInterval.highlightedPort
|| highlightedPort`), resets the interval state, then: with a highlighted
port it normalizes the pair so the `"in"`-prefixed id is the destination
and, only if no edge already joins the pair, emits `beforeChange`, spawns
the edge and calls `model.connect`; with a visible ghost it creates one
input or output and one edge to it; otherwise it mutates nothing. -/
def portDragRelease (originID : String) (localHighlighted : Option String)
    (ghostHidden : Bool) (edges : List (String × String))
    (newIOConnectionId : String) (evX evY : ℚ) (rect : Rect)
    (dragBoundary : ℚ) (dbi : DragBoundaryIntervalState) : ReleaseResult :=
  let highlightedPort :=
    match dbi.highlightedPort with
    | some p => some p
    | none => localHighlighted
  let dbi1 := setDragBoundaryIntervalToDefault dbi
  match highlightedPort with
  | some hp =>
      let ids := normalizePair originID hp
      if findEdge edges ids.1 ids.2 then
        ⟨[], edges, [], 0, 0, dbi1⟩
      else
        ⟨["connect"], edges ++ [ids], [ids], 0, 0, dbi1⟩
  | none =>
      if ghostHidden then
        ⟨[], edges, [], 0, 0, dbi1⟩
      else
        let ioIsInput := idIsInput originID
        let dbi2 := (getBoundaryZonesXYAxes evX evY rect dragBoundary dbi1).2
        ⟨[if ioIsInput then "input.create" else "output.create"],
         edges ++ [(originID, newIOConnectionId)], [],
         if ioIsInput then 1 else 0, if ioIsInput then 0 else 1, dbi2⟩

/-- The final move decision feeding straight into a release, as the drag
session wires them together: the decision of the last
`highlightPortOrShowGhostNode` call supplies the highlighted port and the
ghost hidden flag consumed by the release callback. -/
def portDragMoveThenRelease (ports : List PortPos) (cx cy ndSq : ℚ)
    (originID newIOConnectionId : String) (edges : List (String × String))
    (evX evY : ℚ) (rect : Rect) (dragBoundary : ℚ)
    (dbi : DragBoundaryIntervalState) : ReleaseResult :=
  let dec := highlightPortOrShowGhostNode (getSortedConnectionPorts ports cx cy) ndSq
  portDragRelease originID dec.1 dec.2 edges newIOConnectionId
    evX evY rect dragBoundary dbi

/-! ## Auto-arrange (`workflow.arrange` handler, workflow.ts:309-372)

A connection's endpoint ids have the shape `type/nodeName/portName`; the
handler splits them and uses the node/port name components, so a
connection is embedded as that already-split quadruple.  The `tracker`
object maps each node name to the array of its dependencies' arrays;
since every node name owns exactly one array (shared by reference), array
identity coincides with node-name identity and the embedding stores
dependency *names*.  JS object string keys enumerate in insertion order,
so `tracker` is an insertion-ordered association list.  JS
`Math.max(...xs)` returns `-Infinity` on an empty spread and
`-Infinity + 1 = -Infinity`, which is exactly `⊥` in `WithBot ℤ`.  The
per-call recursion of `trace` is embedded with an explicit fuel that
every recursive step consumes; `none` means the fuel ran out. -/

/-- One parsed connection: source node/port names and destination
node/port names. -/
structure Conn where
  sName : String
  spName : String
  dName : String
  dpName : String
deriving DecidableEq

/-- JS `Set.add`: set insertion, embedded as an ordered list without
duplicates. -/
def setAdd (s : List String) (a : String) : List String :=
  if a ∈ s then s else s ++ [a]

/-- JS `Math.max(...xs)`: maximum of a list, `-Infinity` (`⊥`) when empty. -/
def listMax (l : List (WithBot ℤ)) : WithBot ℤ :=
  l.foldr max ⊥

/-- The node names in tracker insertion order (`Object.keys(tracker)`). -/
def trackerKeys (t : List (String × List String)) : List String :=
  t.map Prod.fst

/-- Lookup of a tracker entry. -/
def trackerFind (t : List (String × List String)) (k : String) :
    Option (List String) :=
  (t.find? fun e => decide (e.1 = k)).map Prod.snd

/-- Step `tracker[sName] || (tracker[sName] = [])`: create an empty entry if the
key is absent. -/
def trackerEnsure (t : List (String × List String)) (k : String) :
    List (String × List String) :=
  if (trackerFind t k).isSome then t else t ++ [(k, [])]

/-- Step `(tracker[dName] || (tracker[dName] = [])).push(tracker[sName])`:
append a dependency name to the key's list, creating the entry first when
absent. -/
def trackerPush (t : List (String × List String)) (k v : String) :
    List (String × List String) :=
  if (trackerFind t k).isSome then
    t.map fun e => if e.1 = k then (e.1, e.2 ++ [v]) else e
  else t ++ [(k, [v])]

/-- The `connections.forEach` loop building `tracker`
(workflow.ts:317-327). -/
def buildTracker (conns : List Conn) : List (String × List String) :=
  conns.foldl (fun t c => trackerPush (trackerEnsure t c.sName) c.dName c.sName) []

/-- The `workflowIns` map of the same loop: node names whose source name
equals the source port name (the model's convention for boundary inputs);
keyed by the per-name dependency array, i.e. by the name itself. -/
def workflowInsOf (conns : List Conn) : List String :=
  conns.foldl (fun w c => if c.sName = c.spName then setAdd w c.sName else w) []

/-- Dependencies of a node name under a tracker (empty when absent). -/
def depsOf (t : List (String × List String)) (k : String) : List String :=
  (trackerFind t k).getD []

/-- The recursive depth trace (workflow.ts:329-332):

`trace(arr, visited) = visited.add(arr); 1 + (arr.length ?
Math.max(...arr.filter(e => !visited.has(e)).map(e => trace(e, visited)))
: 0)`.

`filter` fully evaluates against the visited set as of entry (after the
current node was added), then the recursive calls run sequentially on the
shared mutable set, which the embedding threads explicitly.  A worklist of
sibling nodes is processed with the same threaded visited set; the fuel
drops by one on every step, so the function is structurally recursive and
computable by the kernel; `none` signals fuel exhaustion. -/
def traceList (deps : String → List String) :
    ℕ → List String → List String → Option (List (WithBot ℤ) × List String)
  | _, [], v => some ([], v)
  | 0, _ :: _, _ => none
  | fuel + 1, n :: rest, v =>
      let v1 := setAdd v n
      let r1 : Option (WithBot ℤ × List String) :=
        match deps n with
        | [] => some (1, v1)
        | e0 :: es =>
            match traceList deps fuel
                ((e0 :: es).filter fun e => decide (e ∉ v1)) v1 with
            | none => none
            | some (vals, v2) => some (1 + listMax vals, v2)
      match r1 with
      | none => none
      | some (val, v2) =>
          match traceList deps fuel rest v2 with
          | none => none
          | some (vals, v3) => some (val :: vals, v3)

/-- Call `trace(tracker[k], new Set())` for a single node: run the trace from an
empty visited set. -/
def trace (deps : String → List String) (fuel : ℕ) (n : String) :
    Option (WithBot ℤ) :=
  match traceList deps fuel [n] [] with
  | none => none
  | some (vals, _) => vals.head?

/-- The `idToZoneMap` reduce (workflow.ts:336-338): each key maps to
`trace(tracker[k], new Set()) - 1` (on `WithBot ℤ`, `⊥ - 1 = ⊥`, matching
`-Infinity - 1`). -/
def zonesOfKeys (deps : String → List String) (fuel : ℕ) :
    List String → Option (List (String × WithBot ℤ))
  | [] => some []
  | k :: ks =>
      match trace deps fuel k with
      | none => none
      | some z =>
          match zonesOfKeys deps fuel ks with
          | none => none
          | some rest => some ((k, WithBot.map (fun x => x - 1) z) :: rest)

/-- Zone lookup in the id-to-zone association list. -/
def lookupZone (zm : List (String × WithBot ℤ)) (k : String) :
    Option (WithBot ℤ) :=
  (zm.find? fun e => decide (e.1 = k)).map Prod.snd

/-- The root-adjustment pass (workflow.ts:340-344): for every key `k`, each
dependency of `k` registered in `workflowIns` is pinned to
`idToZoneMap[k] - 1` (reading the current map sequentially).  A missing
key would be `undefined` in JS; it cannot occur for tracker keys and is
embedded as a no-op. -/
def applyRootAdjust (t : List (String × List String)) (wIns : List String)
    (zm : List (String × WithBot ℤ)) : List (String × WithBot ℤ) :=
  (trackerKeys t).foldl (fun zmAcc k =>
    ((depsOf t k).filter fun p => decide (p ∈ wIns)).foldl (fun zm2 pre =>
      match lookupZone zm2 k with
      | none => zm2
      | some zk =>
          zm2.map fun e =>
            if e.1 = pre then (e.1, WithBot.map (fun x => x - 1) zk) else e)
      zmAcc) zm

/-- The complete zone assignment of the arrange handler: build the tracker,
compute every key's traced depth minus one, then apply the
workflow-input root adjustment. -/
def zoneMapOf (conns : List Conn) (fuel : ℕ) :
    Option (List (String × WithBot ℤ)) :=
  (zonesOfKeys (depsOf (buildTracker conns)) fuel
    (trackerKeys (buildTracker conns))).map
    (applyRootAdjust (buildTracker conns) (workflowInsOf conns))

/-- A node's slot inside its zone for the placement loop
(workflow.ts:363-371): its index within the zone's member list (members
collected in tracker-key order) and the zone's member count. -/
def rowSlot (conns : List Conn) (fuel : ℕ) (k : String) : Option (ℕ × ℕ) :=
  match zoneMapOf conns fuel with
  | none => none
  | some zm =>
      match lookupZone zm k with
      | none => none
      | some z =>
          let keys := trackerKeys (buildTracker conns)
          let members := keys.filter fun k2 => decide (lookupZone zm k2 = some z)
          some (members.indexOf k, members.length)

/-- The row offset the placement loop assigns:
`(i + 1) * (height / (zones[z].length + 1))`. -/
def rowOffsetOf (conns : List Conn) (fuel : ℕ) (height : ℚ) (k : String) :
    Option ℚ :=
  (rowSlot conns fuel k).map fun s => (s.1 + 1 : ℚ) * (height / (s.2 + 1))

/-- The diamond graph of C3: connections A→B, A→C, B→D, C→D with all port
names distinct from node names. -/
def diamondConns : List Conn :=
  [⟨"A", "p1", "B", "q1"⟩, ⟨"A", "p2", "C", "q2"⟩,
   ⟨"B", "p3", "D", "q3"⟩, ⟨"C", "p4", "D", "q4"⟩]

/-- The linear chain of C9: connections A→B, B→C, C→D. -/
def chainConns : List Conn :=
  [⟨"A", "ap", "B", "bp"⟩, ⟨"B", "bq", "C", "cp"⟩, ⟨"C", "cq", "D", "dp"⟩]

theorem scaleCalls_fitHandlers (calls : List (ℚ × Option (ℚ × ℚ)))
    (st : WorkflowState) :
    (scaleCalls calls st).fitHandlers = st.fitHandlers + calls.length := by
  induction calls generalizing st with
  | nil => simp [scaleCalls]
  | cons c rest ih =>
      simp only [scaleCalls, List.foldl_cons, List.length_cons] at *
      rw [ih]
      simp [scaleWorkflow]
      omega

/-- C1: anchor invariance of scaling.  For a state whose matrix is a uniform
scale (`d = a`, nonzero, as every reachable state is) and any factor in the
valid zoom band `(0.15, √3]` and anchor screen point `p`, the canvas-space
point lying under `p` before `scaleWorkflow(f, p)` is mapped by the updated
matrix to exactly `p` again — the anchor stays fixed (exactly, hence within
any epsilon). -/
theorem C1_anchor_invariance (st : WorkflowState) (fct : ℚ) (p : ℚ × ℚ)
    (hd : st.matrix.d = st.matrix.a) (ha : st.matrix.a ≠ 0)
    (hband₁ : 15/100 < fct) (hband₂ : fct * fct ≤ 3) :
    canvasToScreen (scaleWorkflow fct (some p) st).matrix
      (translateMouseCoords st.matrix p.1 p.2) = p := by
  obtain ⟨px, py⟩ := p
  simp only [canvasToScreen, scaleWorkflow, translateMouseCoords, hd, Prod.mk.injEq]
  constructor <;> field_simp

/-- Witness for C1 at a concrete state and input: the initial matrix,
factor `1/2`, anchor `(10, 20)`. -/
theorem C1_anchor_invariance_witness :
    initWorkflowState.matrix.d = initWorkflowState.matrix.a ∧
    initWorkflowState.matrix.a ≠ 0 ∧
    (15/100 : ℚ) < 1/2 ∧ (1/2 : ℚ) * (1/2) ≤ 3 ∧
    canvasToScreen (scaleWorkflow (1/2) (some (10, 20)) initWorkflowState).matrix
      (translateMouseCoords initWorkflowState.matrix 10 20) = (10, 20) :=
  ⟨by norm_num [initWorkflowState], by norm_num [initWorkflowState],
   by norm_num, by norm_num,
   C1_anchor_invariance initWorkflowState (1/2) (10, 20)
     (by norm_num [initWorkflowState]) (by norm_num [initWorkflowState])
     (by norm_num) (by norm_num)⟩

/-- C4 counterexample: `scaleWorkflow` itself does not reject out-of-band
factors.  The factor `1/10` is outside the valid zoom band
(`1/10 ≤ 0.15`), yet calling `scaleWorkflow (1/10)` on the initial state
changes the transform matrix, the stored scale and the label transform —
it is not a no-op. -/
theorem C4_counterexample :
    (1/10 : ℚ) ≤ 15/100 ∧
    (scaleWorkflow (1/10) none initWorkflowState).matrix ≠
      initWorkflowState.matrix ∧
    (scaleWorkflow (1/10) none initWorkflowState).scale ≠
      initWorkflowState.scale ∧
    (scaleWorkflow (1/10) none initWorkflowState).labelScale ≠
      initWorkflowState.labelScale := by
  refine ⟨by norm_num, ?_, ?_, ?_⟩ <;>
    simp [scaleWorkflow, translateMouseCoords, initWorkflowState,
      TransformMatrix.mk.injEq] <;> norm_num

/-- C4 (amended): out-of-band factors are rejected by the mousewheel zoom
listener, not by `scaleWorkflow` itself.  Whenever the target scale
`this.scale + deltaY/500` falls outside the valid zoom band
(`target ≤ 0.15` or `target² > 3`), the mousewheel listener leaves the
whole workflow state (matrix, stored scale, label transforms, handlers)
unchanged; `scaleWorkflow` applies any factor it is handed. -/
theorem C4_mousewheel_rejects_out_of_band (isDragging : Bool)
    (deltaY clientX clientY : ℚ) (st : WorkflowState)
    (hout : st.scale + deltaY / 500 ≤ 15/100 ∨
      (st.scale + deltaY / 500) * (st.scale + deltaY / 500) > 3) :
    mousewheelListener isDragging deltaY clientX clientY st = st := by
  unfold mousewheelListener
  cases isDragging with
  | true => simp
  | false => simp only [Bool.false_eq_true, if_false, if_pos hout]

/-- Witness for C4's amended theorem: from the initial state (scale 1), a
wheel delta of `-500` targets scale `0`, which is out of band, and the
listener is a no-op. -/
theorem C4_mousewheel_rejects_out_of_band_witness :
    (initWorkflowState.scale + (-500 : ℚ) / 500 ≤ 15/100 ∨
      (initWorkflowState.scale + (-500 : ℚ) / 500) *
        (initWorkflowState.scale + (-500 : ℚ) / 500) > 3) ∧
    mousewheelListener false (-500) 7 9 initWorkflowState = initWorkflowState :=
  ⟨Or.inl (by norm_num [initWorkflowState]),
   C4_mousewheel_rejects_out_of_band false (-500) 7 9 initWorkflowState
     (Or.inl (by norm_num [initWorkflowState]))⟩

/-- C10: every `scaleWorkflow` call subscribes one more `"workflow.fit"`
handler, so after any sequence of `n` calls (arbitrary factors and
anchors) starting from the initial state there are `n` fit handlers, a
single fit command executes the fit routine `n` times, and before the
first call no fit handler exists. -/
theorem C10_fit_handler_accumulation (calls : List (ℚ × Option (ℚ × ℚ))) :
    (scaleCalls calls initWorkflowState).fitHandlers = calls.length ∧
    fitRunsPerEmit (scaleCalls calls initWorkflowState) = calls.length ∧
    initWorkflowState.fitHandlers = 0 := by
  refine ⟨?_, ?_, rfl⟩ <;>
    simp [scaleCalls_fitHandlers, initWorkflowState, fitRunsPerEmit]

theorem setDragBoundaryIntervalToDefault_clears
    (dbi : DragBoundaryIntervalState) :
    (setDragBoundaryIntervalToDefault dbi).interval = false ∧
    (setDragBoundaryIntervalToDefault dbi).xOffset = 0 ∧
    (setDragBoundaryIntervalToDefault dbi).yOffset = 0 := by
  unfold setDragBoundaryIntervalToDefault
  cases h : dbi.interval <;> simp [h]

theorem getBoundaryZonesXYAxes_interval_mono (x y : ℚ) (rect : Rect)
    (b : ℚ) (dbi : DragBoundaryIntervalState) (h : dbi.interval = false) :
    ((getBoundaryZonesXYAxes x y rect b dbi).2).interval = false := by
  unfold getBoundaryZonesXYAxes
  dsimp only
  split
  · rw [h]; simp [h]
  · exact h

/-- C5 counterexample: on a `1000 × 1000` canvas with band width `50`, the
pointer at the interior point `(500, 500)` is classified interior on both
axes and a timer is running, yet the accumulated `xOffset` (here `5`) and
`yOffset` (here `7`) survive the reset — not every field of the auto-scroll
state returns to its default. -/
theorem C5_counterexample :
    (getBoundaryZonesXYAxes 500 500 ⟨0, 1000, 0, 1000⟩ 50
        ⟨true, true, true, 5, 7, some "p"⟩).1 = (0, 0) ∧
    (⟨true, true, true, 5, 7, some "p"⟩ :
        DragBoundaryIntervalState).interval = true ∧
    (getBoundaryZonesXYAxes 500 500 ⟨0, 1000, 0, 1000⟩ 50
        ⟨true, true, true, 5, 7, some "p"⟩).2.xOffset ≠ 0 ∧
    (getBoundaryZonesXYAxes 500 500 ⟨0, 1000, 0, 1000⟩ 50
        ⟨true, true, true, 5, 7, some "p"⟩).2.yOffset ≠ 0 := by
  refine ⟨?_, rfl, ?_, ?_⟩ <;> norm_num [getBoundaryZonesXYAxes]

/-- C5 (amended): when the drag pointer re-enters the interior of the canvas
on both axes while the auto-scroll timer is running, the timer is cleared
and the axis flags and timer-highlighted port reset to their defaults, but
the accumulated `xOffset` and `yOffset` are retained (they are zeroed only
when the drag session ends). -/
theorem C5_interior_reenter_reset (x y : ℚ) (rect : Rect) (b : ℚ)
    (dbi : DragBoundaryIntervalState)
    (h1 : ¬(x < rect.left + b)) (h2 : ¬(x > rect.right - b))
    (h3 : ¬(y < rect.top + b)) (h4 : ¬(y > rect.bottom - b))
    (hint : dbi.interval = true) :
    getBoundaryZonesXYAxes x y rect b dbi =
      ((0, 0), { dbi with x := false, y := false, interval := false,
                          highlightedPort := none }) := by
  simp [getBoundaryZonesXYAxes, h1, h2, h3, h4, hint]

/-- Witness for C5's amended theorem at the counterexample's canvas and
pointer position. -/
theorem C5_interior_reenter_reset_witness :
    ¬((500 : ℚ) < (0 : ℚ) + 50) ∧ ¬((500 : ℚ) > (1000 : ℚ) - 50) ∧
    (⟨true, true, true, 5, 7, some "p"⟩ :
        DragBoundaryIntervalState).interval = true ∧
    getBoundaryZonesXYAxes 500 500 ⟨0, 1000, 0, 1000⟩ 50
        ⟨true, true, true, 5, 7, some "p"⟩ =
      ((0, 0), ⟨false, false, false, 5, 7, none⟩) :=
  ⟨by norm_num, by norm_num, rfl,
   C5_interior_reenter_reset 500 500 ⟨0, 1000, 0, 1000⟩ 50
     ⟨true, true, true, 5, 7, some "p"⟩
     (by norm_num) (by norm_num) (by norm_num) (by norm_num) rfl⟩

theorem adjustDragBoundary_exits (rect : Rect) :
    ∀ (n : ℕ) (b : ℚ), 0 < b → 4 * b < (rect.right - rect.left) * 2 ^ n →
      ∃ b', adjustDragBoundary rect b (n + 1) = some b' ∧ 0 < b' ∧
        rect.left + b' < rect.right - b' := by
  intro n
  induction n with
  | zero =>
      intro b hb hlt
      rw [pow_zero, mul_one] at hlt
      have hcond : ¬(rect.right - b ≤ rect.left + b ∨
          rect.right ≤ rect.left + b * 4) := by
        push_neg
        constructor <;> linarith
      refine ⟨b, ?_, hb, by linarith⟩
      unfold adjustDragBoundary
      rw [if_neg hcond]
  | succ n ih =>
      intro b hb hlt
      by_cases hcond : rect.right - b ≤ rect.left + b ∨
          rect.right ≤ rect.left + b * 4
      · have hstep : adjustDragBoundary rect b (n + 1 + 1) =
            adjustDragBoundary rect (b / 2) (n + 1) := by
          conv_lhs => rw [adjustDragBoundary]
          rw [if_pos hcond]
        have hpow : (0 : ℚ) < 2 ^ n := by positivity
        rw [pow_succ] at hlt
        obtain ⟨b', h', hb', hlt'⟩ := ih (b / 2) (by positivity) (by linarith)
        exact ⟨b', by rw [hstep]; exact h', hb', hlt'⟩
      · push_neg at hcond
        refine ⟨b, ?_, hb, by linarith [hcond.1]⟩
        unfold adjustDragBoundary
        rw [if_neg (by push_neg; exact hcond)]

/-- C6 (amended): before starting an auto-scroll timer, the boundary band
width is halved repeatedly while it would span half or more of the
canvas's width or make the left and right bands overlap; only the x axis
(width) is checked, so for every canvas rectangle of positive width and
every positive starting band the loop terminates with a band under which
the left and right bands do not overlap.  (The top/bottom bands are not
considered and may still overlap — see the counterexample.) -/
theorem C6_band_self_adjustment (rect : Rect) (b : ℚ) (hb : 0 < b)
    (hw : rect.left < rect.right) :
    ∃ (fuel : ℕ) (b' : ℚ), adjustDragBoundary rect b fuel = some b' ∧
      0 < b' ∧ rect.left + b' < rect.right - b' := by
  obtain ⟨n, hn⟩ := pow_unbounded_of_one_lt (α := ℚ)
    ((4 * b) / (rect.right - rect.left)) (by norm_num : (1 : ℚ) < 2)
  have hw' : 0 < rect.right - rect.left := by linarith
  have h4 : 4 * b < (rect.right - rect.left) * 2 ^ n := by
    rw [div_lt_iff₀ hw'] at hn
    linarith [hn]
  obtain ⟨b', h⟩ := adjustDragBoundary_exits rect n b hb h4
  exact ⟨n + 1, b', h⟩

/-- Witness for C6's amended theorem on a concrete canvas. -/
theorem C6_band_self_adjustment_witness :
    (0 : ℚ) < 50 ∧ (⟨0, 1000, 0, 20⟩ : Rect).left < (⟨0, 1000, 0, 20⟩ : Rect).right ∧
    ∃ (fuel : ℕ) (b' : ℚ),
      adjustDragBoundary ⟨0, 1000, 0, 20⟩ 50 fuel = some b' ∧ 0 < b' ∧
      (⟨0, 1000, 0, 20⟩ : Rect).left + b' < (⟨0, 1000, 0, 20⟩ : Rect).right - b' :=
  ⟨by norm_num, by norm_num,
   C6_band_self_adjustment ⟨0, 1000, 0, 20⟩ 50 (by norm_num) (by norm_num)⟩

/-- C6 counterexample: the adjustment loop only inspects the x axis.  On a
wide, flat canvas (`1000 × 20`) with band width `50` the loop exits
immediately keeping `50`, yet the top and bottom bands overlap
(`top + 50 > bottom - 50`) — the claim's "on either axis / top-bottom
bands do not overlap" part fails. -/
theorem C6_counterexample :
    adjustDragBoundary ⟨0, 1000, 0, 20⟩ 50 1 = some 50 ∧
    ¬((⟨0, 1000, 0, 20⟩ : Rect).top + 50 <
      (⟨0, 1000, 0, 20⟩ : Rect).bottom - 50) := by
  constructor
  · unfold adjustDragBoundary
    rw [if_neg (by push_neg; constructor <;> norm_num)]
  · norm_num

theorem portDragRelease_dbi_interval (originID : String)
    (localHighlighted : Option String) (ghostHidden : Bool)
    (edges : List (String × String)) (newID : String) (evX evY : ℚ)
    (rect : Rect) (b : ℚ) (dbi : DragBoundaryIntervalState) :
    (portDragRelease originID localHighlighted ghostHidden edges newID
        evX evY rect b dbi).dbi.interval = false := by
  have hdef := (setDragBoundaryIntervalToDefault_clears dbi).1
  unfold portDragRelease
  cases hh : dbi.highlightedPort with
  | some p => simp only [hh]; split <;> exact hdef
  | none =>
      cases localHighlighted with
      | some q => simp only [hh]; split <;> exact hdef
      | none =>
          simp only [hh]
          split
          · exact hdef
          · exact getBoundaryZonesXYAxes_interval_mono _ _ _ _ _ hdef

/-- C7: ending any drag session unconditionally clears the boundary
auto-scroll timer.  `setDragBoundaryIntervalToDefault` — called first thing
in both the node-drag end callback and the port-drag release callback,
independently of the pointer position — always leaves the timer handle
cleared and the accumulated offsets zeroed, and the whole port-drag release
callback (whatever branch it takes afterwards) ends with no timer set, so
no repeating auto-scroll action survives the session. -/
theorem C7_drag_end_clears_timer (dbi : DragBoundaryIntervalState)
    (originID : String) (localHighlighted : Option String)
    (ghostHidden : Bool) (edges : List (String × String)) (newID : String)
    (evX evY : ℚ) (rect : Rect) (b : ℚ) :
    (setDragBoundaryIntervalToDefault dbi).interval = false ∧
    (setDragBoundaryIntervalToDefault dbi).xOffset = 0 ∧
    (setDragBoundaryIntervalToDefault dbi).yOffset = 0 ∧
    (portDragRelease originID localHighlighted ghostHidden edges newID
        evX evY rect b dbi).dbi.interval = false :=
  ⟨(setDragBoundaryIntervalToDefault_clears dbi).1,
   (setDragBoundaryIntervalToDefault_clears dbi).2.1,
   (setDragBoundaryIntervalToDefault_clears dbi).2.2,
   portDragRelease_dbi_interval originID localHighlighted ghostHidden edges
     newID evX evY rect b dbi⟩

/-- C8: releasing a port drag onto a highlighted port whose normalized pair
is already joined by an existing edge is a no-op: no `beforeChange`
notification, no new edge, no `model.connect` call, and the rendered edge
list is unchanged. -/
theorem C8_duplicate_connection_noop (originID hp : String)
    (localHighlighted : Option String) (ghostHidden : Bool)
    (edges : List (String × String)) (newID : String) (evX evY : ℚ)
    (rect : Rect) (b : ℚ) (dbi : DragBoundaryIntervalState)
    (hhl : dbi.highlightedPort = some hp ∨
      (dbi.highlightedPort = none ∧ localHighlighted = some hp))
    (hdup : normalizePair originID hp ∈ edges) :
    (portDragRelease originID localHighlighted ghostHidden edges newID
        evX evY rect b dbi).beforeChangeEmits = [] ∧
    (portDragRelease originID localHighlighted ghostHidden edges newID
        evX evY rect b dbi).edges = edges ∧
    (portDragRelease originID localHighlighted ghostHidden edges newID
        evX evY rect b dbi).connectCalls = [] ∧
    (portDragRelease originID localHighlighted ghostHidden edges newID
        evX evY rect b dbi).createdInputs = 0 ∧
    (portDragRelease originID localHighlighted ghostHidden edges newID
        evX evY rect b dbi).createdOutputs = 0 := by
  have hfe : findEdge edges (normalizePair originID hp).1
      (normalizePair originID hp).2 = true := by
    have : ((normalizePair originID hp).1, (normalizePair originID hp).2)
        ∈ edges := by
      rw [Prod.mk.eta]
      exact hdup
    simpa [findEdge] using this
  unfold portDragRelease
  rcases hhl with h | ⟨h1, h2⟩
  · simp only [h]
    rw [if_pos hfe]
    exact ⟨rfl, rfl, rfl, rfl, rfl⟩
  · simp only [h1, h2]
    rw [if_pos hfe]
    exact ⟨rfl, rfl, rfl, rfl, rfl⟩

/-- Witness for C8: origin `"out/A/o"`, highlighted port `"in/B/i"`, with
the edge `("out/A/o", "in/B/i")` already present; the release changes
nothing. -/
theorem C8_duplicate_connection_noop_witness :
    ((dragBoundaryIntervalDefault.highlightedPort = some "in/B/i" ∨
      (dragBoundaryIntervalDefault.highlightedPort = none ∧
        (some "in/B/i" : Option String) = some "in/B/i")) ∧
     normalizePair "out/A/o" "in/B/i" ∈ [("out/A/o", "in/B/i")]) ∧
    (portDragRelease "out/A/o" (some "in/B/i") true [("out/A/o", "in/B/i")]
        "x" 0 0 ⟨0, 1000, 0, 1000⟩ 50 dragBoundaryIntervalDefault).edges =
      [("out/A/o", "in/B/i")] ∧
    (portDragRelease "out/A/o" (some "in/B/i") true [("out/A/o", "in/B/i")]
        "x" 0 0 ⟨0, 1000, 0, 1000⟩ 50
        dragBoundaryIntervalDefault).connectCalls = [] :=
  ⟨⟨Or.inr ⟨rfl, rfl⟩, by decide⟩,
   (C8_duplicate_connection_noop "out/A/o" "in/B/i" (some "in/B/i") true
      [("out/A/o", "in/B/i")] "x" 0 0 ⟨0, 1000, 0, 1000⟩ 50
      dragBoundaryIntervalDefault (Or.inr ⟨rfl, rfl⟩) (by decide)).2.1,
   (C8_duplicate_connection_noop "out/A/o" "in/B/i" (some "in/B/i") true
      [("out/A/o", "in/B/i")] "x" 0 0 ⟨0, 1000, 0, 1000⟩ 50
      dragBoundaryIntervalDefault (Or.inr ⟨rfl, rfl⟩) (by decide)).2.2.1⟩

theorem rankLe_trans (a b c : RankedPort) (hab : rankLe a b = true)
    (hbc : rankLe b c = true) : rankLe a c = true := by
  simp only [rankLe, decide_eq_true_eq] at *
  exact le_trans hab hbc

theorem rankLe_total (a b : RankedPort) : (rankLe a b || rankLe b a) = true := by
  simp only [rankLe, Bool.or_eq_true, decide_eq_true_eq]
  exact le_total _ _

/-- The head of the ranked candidate list is a candidate at minimal
distance: sorting is by ascending distance, so `sorted[0]` is nearest. -/
theorem getSortedConnectionPorts_head_min (ports : List PortPos) (cx cy : ℚ)
    (p : RankedPort) (rest : List RankedPort)
    (h : getSortedConnectionPorts ports cx cy = p :: rest) :
    ∀ q ∈ ports, p.distSq ≤ distanceSq cx cy q.x q.y := by
  intro q hq
  have hmem : (⟨q.id, distanceSq cx cy q.x q.y⟩ : RankedPort) ∈
      (ports.map fun pt => (⟨pt.id, distanceSq cx cy pt.x pt.y⟩ : RankedPort)) :=
    List.mem_map_of_mem _ hq
  have hperm := List.mergeSort_perm
    (ports.map fun pt => (⟨pt.id, distanceSq cx cy pt.x pt.y⟩ : RankedPort)) rankLe
  have hmem2 : (⟨q.id, distanceSq cx cy q.x q.y⟩ : RankedPort) ∈ p :: rest := by
    rw [← h]
    exact (hperm.mem_iff).2 hmem
  have hsorted := List.sorted_mergeSort rankLe_trans rankLe_total
    (ports.map fun pt => (⟨pt.id, distanceSq cx cy pt.x pt.y⟩ : RankedPort))
  rw [show ((ports.map fun pt =>
      (⟨pt.id, distanceSq cx cy pt.x pt.y⟩ : RankedPort)).mergeSort rankLe) =
      getSortedConnectionPorts ports cx cy from rfl, h] at hsorted
  rcases List.mem_cons.mp hmem2 with heq | hrest
  · exact le_of_eq (congrArg RankedPort.distSq heq).symm
  · have := (List.pairwise_cons.mp hsorted).1 _ hrest
    simpa [rankLe] using this

/-- C2: the port-drag snap/ghost decision and the exclusivity of what a
release creates.  With no timer-driven highlight pending, on a drag move:
if the nearest opposite-role candidate is at distance `< 100` (squares
compared) exactly that nearest candidate is highlighted and the ghost stays
hidden, and a release onto it (when the normalized pair is not already
connected) performs exactly one `model.connect` call and adds exactly one
edge and zero nodes; otherwise no port is highlighted and the ghost is
revealed exactly when the origin-node distance exceeds `120`, in which case
a release creates exactly one node and one edge and performs no
`model.connect` call; in the dead zone (no highlight, ghost hidden) a
release mutates nothing; and for arbitrary highlight/ghost flags a release
never both calls `model.connect` and creates a node. -/
theorem C2_snap_ghost_release (ports : List PortPos) (cx cy ndSq : ℚ)
    (originID newID : String) (edges : List (String × String))
    (evX evY : ℚ) (rect : Rect) (b : ℚ) (dbi : DragBoundaryIntervalState)
    (hdbi : dbi.highlightedPort = none) :
    (∀ p rest, getSortedConnectionPorts ports cx cy = p :: rest →
      p.distSq < 100 ^ 2 →
      highlightPortOrShowGhostNode (getSortedConnectionPorts ports cx cy)
          ndSq = (some p.id, true) ∧
      (∀ q ∈ ports, p.distSq ≤ distanceSq cx cy q.x q.y) ∧
      (normalizePair originID p.id ∉ edges →
        (portDragMoveThenRelease ports cx cy ndSq originID newID edges
            evX evY rect b dbi).connectCalls.length = 1 ∧
        (portDragMoveThenRelease ports cx cy ndSq originID newID edges
            evX evY rect b dbi).edges.length = edges.length + 1 ∧
        (portDragMoveThenRelease ports cx cy ndSq originID newID edges
            evX evY rect b dbi).createdInputs = 0 ∧
        (portDragMoveThenRelease ports cx cy ndSq originID newID edges
            evX evY rect b dbi).createdOutputs = 0)) ∧
    (∀ p rest, getSortedConnectionPorts ports cx cy = p :: rest →
      ¬(p.distSq < 100 ^ 2) →
      highlightPortOrShowGhostNode (getSortedConnectionPorts ports cx cy)
          ndSq = (none, if ndSq > 120 ^ 2 then false else true) ∧
      (ndSq > 120 ^ 2 →
        (portDragMoveThenRelease ports cx cy ndSq originID newID edges
            evX evY rect b dbi).createdInputs +
          (portDragMoveThenRelease ports cx cy ndSq originID newID edges
            evX evY rect b dbi).createdOutputs = 1 ∧
        (portDragMoveThenRelease ports cx cy ndSq originID newID edges
            evX evY rect b dbi).edges.length = edges.length + 1 ∧
        (portDragMoveThenRelease ports cx cy ndSq originID newID edges
            evX evY rect b dbi).connectCalls = []) ∧
      (¬(ndSq > 120 ^ 2) →
        (portDragMoveThenRelease ports cx cy ndSq originID newID edges
            evX evY rect b dbi).edges = edges ∧
        (portDragMoveThenRelease ports cx cy ndSq originID newID edges
            evX evY rect b dbi).beforeChangeEmits = [] ∧
        (portDragMoveThenRelease ports cx cy ndSq originID newID edges
            evX evY rect b dbi).connectCalls = [] ∧
        (portDragMoveThenRelease ports cx cy ndSq originID newID edges
            evX evY rect b dbi).createdInputs = 0 ∧
        (portDragMoveThenRelease ports cx cy ndSq originID newID edges
            evX evY rect b dbi).createdOutputs = 0)) ∧
    (∀ (anyHl : Option String) (anyHidden : Bool),
      (portDragRelease originID anyHl anyHidden edges newID evX evY rect b
          dbi).connectCalls = [] ∨
      (portDragRelease originID anyHl anyHidden edges newID evX evY rect b
          dbi).createdInputs +
        (portDragRelease originID anyHl anyHidden edges newID evX evY rect b
          dbi).createdOutputs = 0) := by
  refine ⟨?_, ?_, ?_⟩
  · intro p rest h hlt
    have hdec : highlightPortOrShowGhostNode
        (getSortedConnectionPorts ports cx cy) ndSq = (some p.id, true) := by
      rw [h]
      simp [highlightPortOrShowGhostNode, hlt]
    refine ⟨hdec, getSortedConnectionPorts_head_min ports cx cy p rest h, ?_⟩
    intro hni
    have hfe : findEdge edges (normalizePair originID p.id).1
        (normalizePair originID p.id).2 = false := by
      have : ¬(((normalizePair originID p.id).1,
          (normalizePair originID p.id).2) ∈ edges) := by
        rw [Prod.mk.eta]
        exact hni
      simpa [findEdge] using this
    unfold portDragMoveThenRelease
    rw [hdec]
    unfold portDragRelease
    simp only [hdbi]
    rw [if_neg (by simp [hfe])]
    simp
  · intro p rest h hge
    have hdec : highlightPortOrShowGhostNode
        (getSortedConnectionPorts ports cx cy) ndSq =
        (none, if ndSq > 120 ^ 2 then false else true) := by
      rw [h]
      simp [highlightPortOrShowGhostNode, hge]
    refine ⟨hdec, ?_, ?_⟩
    · intro hfar
      unfold portDragMoveThenRelease
      rw [hdec]
      unfold portDragRelease
      simp only [hdbi]
      rw [if_pos hfar, if_neg (by simp)]
      cases hio : idIsInput originID <;> simp [hio]
    · intro hnear
      unfold portDragMoveThenRelease
      rw [hdec]
      unfold portDragRelease
      simp only [hdbi]
      rw [if_neg hnear, if_pos (by simp)]
      exact ⟨rfl, rfl, rfl, rfl, rfl⟩
  · intro anyHl anyHidden
    unfold portDragRelease
    simp only [hdbi]
    cases anyHl with
    | none =>
        cases anyHidden with
        | true => simp
        | false => simp
    | some hp =>
        by_cases hfe : findEdge edges (normalizePair originID hp).1
            (normalizePair originID hp).2 = true
        · simp [hfe]
        · simp [hfe]

theorem getSortedConnectionPorts_example :
    getSortedConnectionPorts [⟨"in/B/i", 30, 40⟩] 0 0 = [⟨"in/B/i", 2500⟩] := by
  unfold getSortedConnectionPorts
  norm_num [distanceSq, List.mergeSort_singleton]

/-- Witness for C2 in the snap scenario: a single opposite-role candidate
port at distance `50` (squared `2500 < 100²`) from the cursor, no edge yet
between the pair; the release performs one `model.connect`, adds one edge
and creates no node. -/
theorem C2_snap_ghost_release_witness :
    dragBoundaryIntervalDefault.highlightedPort = none ∧
    getSortedConnectionPorts [⟨"in/B/i", 30, 40⟩] 0 0 = [⟨"in/B/i", 2500⟩] ∧
    (⟨"in/B/i", 2500⟩ : RankedPort).distSq < 100 ^ 2 ∧
    normalizePair "out/A/o" "in/B/i" ∉ ([] : List (String × String)) ∧
    (portDragMoveThenRelease [⟨"in/B/i", 30, 40⟩] 0 0 2500 "out/A/o" "n" []
        0 0 ⟨0, 1000, 0, 1000⟩ 50
        dragBoundaryIntervalDefault).connectCalls.length = 1 ∧
    (portDragMoveThenRelease [⟨"in/B/i", 30, 40⟩] 0 0 2500 "out/A/o" "n" []
        0 0 ⟨0, 1000, 0, 1000⟩ 50
        dragBoundaryIntervalDefault).edges.length =
      ([] : List (String × String)).length + 1 ∧
    (portDragMoveThenRelease [⟨"in/B/i", 30, 40⟩] 0 0 2500 "out/A/o" "n" []
        0 0 ⟨0, 1000, 0, 1000⟩ 50
        dragBoundaryIntervalDefault).createdInputs = 0 ∧
    (portDragMoveThenRelease [⟨"in/B/i", 30, 40⟩] 0 0 2500 "out/A/o" "n" []
        0 0 ⟨0, 1000, 0, 1000⟩ 50
        dragBoundaryIntervalDefault).createdOutputs = 0 := by
  have hmain := (C2_snap_ghost_release [⟨"in/B/i", 30, 40⟩] 0 0 2500
    "out/A/o" "n" [] 0 0 ⟨0, 1000, 0, 1000⟩ 50 dragBoundaryIntervalDefault
    rfl).1 ⟨"in/B/i", 2500⟩ [] getSortedConnectionPorts_example
    (by norm_num)
  have hrel := hmain.2.2 (by decide)
  exact ⟨rfl, getSortedConnectionPorts_example, by norm_num, by decide,
    hrel.1, hrel.2.1, hrel.2.2.1, hrel.2.2.2⟩

theorem traceList_mono (deps : String → List String) :
    ∀ (fuel : ℕ) (nodes v : List String) (r : List (WithBot ℤ) × List String),
      traceList deps fuel nodes v = some r →
      traceList deps (fuel + 1) nodes v = some r := by
  intro fuel
  induction fuel with
  | zero =>
      intro nodes v r h
      cases nodes with
      | nil => simpa [traceList] using h
      | cons n rest => simp [traceList] at h
  | succ f ih =>
      intro nodes v r h
      cases nodes with
      | nil => simpa [traceList] using h
      | cons n rest =>
          rw [traceList] at h ⊢
          cases hdep : deps n with
          | nil =>
              simp only [hdep] at h ⊢
              rcases hrest : traceList deps f rest (setAdd v n)
                  with _ | ⟨vals, v3⟩ <;> rw [hrest] at h
              · simp at h
              · rw [ih rest (setAdd v n) (vals, v3) hrest]
                exact h
          | cons e0 es =>
              simp only [hdep] at h ⊢
              rcases hchild : traceList deps f
                  ((e0 :: es).filter fun e => decide (e ∉ setAdd v n))
                  (setAdd v n) with _ | ⟨vals, v2⟩ <;> rw [hchild] at h
              · simp at h
              · rw [ih _ _ _ hchild]
                dsimp only at h ⊢
                rcases hrest : traceList deps f rest v2
                    with _ | ⟨vals2, v3⟩ <;> rw [hrest] at h
                · simp at h
                · rw [ih _ _ _ hrest]
                  exact h

theorem traceList_mono_le (deps : String → List String) (fuel fuel' : ℕ)
    (h : fuel ≤ fuel') (nodes v : List String)
    (r : List (WithBot ℤ) × List String)
    (ht : traceList deps fuel nodes v = some r) :
    traceList deps fuel' nodes v = some r := by
  induction h with
  | refl => exact ht
  | step h2 ih => exact traceList_mono deps _ nodes v r ih

theorem trace_mono (deps : String → List String) (fuel fuel' : ℕ)
    (h : fuel ≤ fuel') (n : String) (z : WithBot ℤ)
    (ht : trace deps fuel n = some z) : trace deps fuel' n = some z := by
  unfold trace at ht ⊢
  rcases htl : traceList deps fuel [n] [] with _ | ⟨vals, v⟩
  · rw [htl] at ht
    simp at ht
  · rw [htl] at ht
    rw [traceList_mono_le deps fuel fuel' h [n] [] (vals, v) htl]
    exact ht

theorem zonesOfKeys_mono (deps : String → List String) (fuel fuel' : ℕ)
    (h : fuel ≤ fuel') :
    ∀ (keys : List String) (zm : List (String × WithBot ℤ)),
      zonesOfKeys deps fuel keys = some zm →
      zonesOfKeys deps fuel' keys = some zm := by
  intro keys
  induction keys with
  | nil =>
      intro zm h2
      simpa [zonesOfKeys] using h2
  | cons k ks ih =>
      intro zm h2
      rw [zonesOfKeys] at h2 ⊢
      rcases htr : trace deps fuel k with _ | z <;> rw [htr] at h2
      · simp at h2
      · rcases hz : zonesOfKeys deps fuel ks with _ | rest <;> rw [hz] at h2
        · simp at h2
        · rw [trace_mono deps fuel fuel' h k z htr, ih rest hz]
          exact h2

theorem zoneMapOf_mono (conns : List Conn) (fuel fuel' : ℕ)
    (h : fuel ≤ fuel') (zm : List (String × WithBot ℤ))
    (hz : zoneMapOf conns fuel = some zm) :
    zoneMapOf conns fuel' = some zm := by
  unfold zoneMapOf at hz ⊢
  rcases hk : zonesOfKeys (depsOf (buildTracker conns)) fuel
      (trackerKeys (buildTracker conns)) with _ | l <;> rw [hk] at hz
  · simp at hz
  · rw [zonesOfKeys_mono (depsOf (buildTracker conns)) fuel fuel' h _ _ hk]
    exact hz

/-- C3: on the diamond graph (A→B, A→C, B→D, C→D) the arrange handler's
recursive depth trace terminates — with fuel 10 (and any larger fuel) every
node's trace completes with the same answer, the visited-set guard having
cut every revisit — and the resulting zone map assigns D the zone 2,
strictly greater than the zones of B and C (both 1). -/
theorem C3_diamond_terminates (fuel : ℕ) (hfuel : 10 ≤ fuel) :
    (zoneMapOf diamondConns fuel).isSome = true ∧
    ∃ zB zC zD : WithBot ℤ,
      zoneMapOf diamondConns fuel =
        some [("A", 0), ("B", zB), ("C", zC), ("D", zD)] ∧
      zB < zD ∧ zC < zD := by
  have hbase : zoneMapOf diamondConns 10 =
      some [("A", 0), ("B", 1), ("C", 1), ("D", 2)] := by decide
  have h := zoneMapOf_mono diamondConns 10 fuel hfuel _ hbase
  exact ⟨by simp [h], 1, 1, 2, h, by decide, by decide⟩

/-- Witness for C3 at the exact fuel bound. -/
theorem C3_diamond_terminates_witness :
    10 ≤ 10 ∧
    ((zoneMapOf diamondConns 10).isSome = true ∧
     ∃ zB zC zD : WithBot ℤ,
       zoneMapOf diamondConns 10 =
         some [("A", 0), ("B", zB), ("C", zC), ("D", zD)] ∧
       zB < zD ∧ zC < zD) :=
  ⟨le_refl 10, C3_diamond_terminates 10 (le_refl 10)⟩

/-- C9: depth assignment of the arrange algorithm.  A node with no
dependencies gets depth 1; a node with dependencies gets
`1 + max` of its not-yet-visited dependencies' depths; 1 is subtracted at
the end, so on the linear chain A→B→C→D the zone map is exactly
A↦0, B↦1, C↦2, D↦3, and each zone's single node receives the row offset
`canvas height / 2`. -/
theorem C9_chain_depths (height : ℚ) :
    (∀ (deps : String → List String) (fuel : ℕ) (n : String)
        (v : List String), deps n = [] →
      traceList deps (fuel + 1) [n] v = some ([1], setAdd v n)) ∧
    (∀ (deps : String → List String) (fuel : ℕ) (n : String)
        (v : List String) (vals : List (WithBot ℤ)) (v2 : List String),
      deps n ≠ [] →
      traceList deps fuel ((deps n).filter fun e => decide (e ∉ setAdd v n))
          (setAdd v n) = some (vals, v2) →
      traceList deps (fuel + 1) [n] v = some ([1 + listMax vals], v2)) ∧
    zoneMapOf chainConns 10 = some [("A", 0), ("B", 1), ("C", 2), ("D", 3)] ∧
    rowOffsetOf chainConns 10 height "A" = some (height / 2) ∧
    rowOffsetOf chainConns 10 height "B" = some (height / 2) ∧
    rowOffsetOf chainConns 10 height "C" = some (height / 2) ∧
    rowOffsetOf chainConns 10 height "D" = some (height / 2) := by
  have hslotA : rowSlot chainConns 10 "A" = some (0, 1) := by decide
  have hslotB : rowSlot chainConns 10 "B" = some (0, 1) := by decide
  have hslotC : rowSlot chainConns 10 "C" = some (0, 1) := by decide
  have hslotD : rowSlot chainConns 10 "D" = some (0, 1) := by decide
  refine ⟨?_, ?_, by decide, ?_, ?_, ?_, ?_⟩
  · intro deps fuel n v hdep
    rw [traceList]
    simp [hdep, traceList]
  · intro deps fuel n v vals v2 hne hchild
    rcases hdep : deps n with _ | ⟨e0, es⟩
    · exact absurd hdep hne
    · rw [hdep] at hchild
      simp only [decide_not] at hchild
      rw [traceList]
      simp [hdep, hchild, traceList, decide_not]
  all_goals
    simp only [rowOffsetOf, hslotA, hslotB, hslotC, hslotD, Option.map_some]
    norm_num

/-- Witness for C9: a dependency-free node gets depth 1, and on a canvas of
height 600 every chain node's row offset evaluates to 300. -/
theorem C9_chain_depths_witness :
    ((fun _ => ([] : List String)) "X" = ([] : List String)) ∧
    traceList (fun _ => ([] : List String)) 1 ["X"] [] = some ([1], ["X"]) ∧
    rowOffsetOf chainConns 10 600 "A" = some 300 := by
  refine ⟨rfl, ?_, ?_⟩
  · exact (C9_chain_depths 600).1 (fun _ => []) 0 "X" [] rfl
  · have h := (C9_chain_depths 600).2.2.2.1
    norm_num at h
    exact h

end CwlSvg
